import Mathlib

/-!
Verification of the posting-pipeline core of the `intagram-auto-publish`
repository (files `instagram_bot.py`, `config.py`).

The Python code is shallowly embedded: pure string functions become Lean
functions on `List Char` / `String`; the filesystem, the network and the
random generator become explicit oracle arguments; datetimes become `Int`
microseconds (the resolution of Python `datetime`); API calls return values
plus the list of graph requests they issued, so that "no network call was
made" is expressible.

Model caveats (each noted again at its definition):
* `Char.toLower`, `Char.isAlphanum`, `Char.isWhitespace` are ASCII-exact
  models of Python `str.lower` / `\w` / `str.strip`; theorems that depend on
  character classes are stated for ASCII inputs, where the model is exact.
* `os.path.splitext` is modelled for plain file names (no path separators),
  which is how the bot uses it (inputs come from `os.listdir`).
-/

/-! ### Constants from `src/config.py` -/

def VIDEO_EXTENSIONS : List String :=
  [".mp4", ".avi", ".mkv", ".mov", ".wmv", ".flv", ".webm"]

def MAX_IMAGE_SIZE_MB : Nat := 8

def MAX_VIDEO_SIZE_MB : Nat := 100

def MB_TO_BYTES : Nat := 1024 * 1024

def TOKEN_EXPIRY_WARNING_DAYS : Int := 7

def LONG_LIVED_TOKEN_DURATION_DAYS : Int := 60

def DEFAULT_HASHTAG_COUNT : Nat := 5

def HTTP_SUCCESS_CODE : Nat := 200

def REELS_THUMB_OFFSET : String := "10"

/-- Microseconds per day: Python `datetime`/`timedelta` resolution.
`timedelta(days = n)` is modelled as `n * usPerDay` on `Int` timestamps. -/
def usPerDay : Int := 86400000000

/-! ### Python string primitives used by the bot -/

/-- Python `str.strip()`: remove leading and trailing whitespace.
`Char.isWhitespace` is exact for the ASCII whitespace the bot encounters. -/
def pyStrip (l : List Char) : List Char :=
  ((l.dropWhile Char.isWhitespace).reverse.dropWhile Char.isWhitespace).reverse

/-- Python `str.rfind('.')`: index of the last dot, `-1` if there is none. -/
def rfindDot : List Char → Int
  | [] => -1
  | c :: rest =>
    let r := rfindDot rest
    if r ≥ 0 then r + 1 else if c = '.' then 0 else -1

/-- Python slice `s[i:]` for a possibly negative start index `i`:
a negative `i` counts from the end, clamped at the start of the string. -/
def pySliceFrom (l : List Char) (i : Int) : List Char :=
  if 0 ≤ i then l.drop i.toNat
  else l.drop (l.length - min (-i).toNat l.length)

/-- `os.path.splitext` for a plain file name (no directory separators):
split at the last dot, except that a name whose characters before that dot
are all dots (e.g. `".bashrc"`, `"..."`) has no extension. -/
def pySplitext (p : List Char) : List Char × List Char :=
  if rfindDot p ≥ 0 then
    if (p.take (rfindDot p).toNat).all (fun c => c = '.') then (p, [])
    else (p.take (rfindDot p).toNat, p.drop (rfindDot p).toNat)
  else (p, [])

/-! ### `is_video_file` (instagram_bot.py lines 194-197) -/

/-- `is_video_file`: take the slice from `rfind('.')` to the end, lower-case
it, and test membership in `VIDEO_EXTENSIONS`.  (When the name has no dot,
`rfind` returns `-1` and the slice degenerates to the final character.)
`Char.toLower` models `str.lower`, exact on ASCII. -/
def is_video_file (file_name : String) : Bool :=
  let file_extension := pySliceFrom file_name.data (rfindDot file_name.data)
  decide (String.mk (file_extension.map Char.toLower) ∈ VIDEO_EXTENSIONS)

/-! ### `validate_media_file` (instagram_bot.py lines 232-259)

The filesystem is an oracle: `fsExists` models `os.path.exists(file_path)`
and `sizeBytes` models `os.path.getsize(file_path)`. -/

def validate_media_file (file_path : String) (fsExists : Bool) (sizeBytes : Nat) :
    Bool × String :=
  if !fsExists then (false, "File does not exist")
  else if is_video_file file_path then
    if sizeBytes > MAX_VIDEO_SIZE_MB * MB_TO_BYTES then
      (false, "Video too large (max " ++ toString MAX_VIDEO_SIZE_MB ++ "MB)")
    else (true, "Valid")
  else
    if sizeBytes > MAX_IMAGE_SIZE_MB * MB_TO_BYTES then
      (false, "Image too large (max " ++ toString MAX_IMAGE_SIZE_MB ++ "MB)")
    else (true, "Valid")

/-! ### `sanitize_filename` (instagram_bot.py lines 199-230) -/

/-- Python regex `\w` on `str`: `[A-Za-z0-9_]` plus Unicode word characters.
Exact on ASCII; every character `≥ 128` is treated as a word character
(theorems depending on this classification are stated on ASCII inputs). -/
def isPyWordChar (c : Char) : Bool :=
  c.isAlphanum || c = '_' || 128 ≤ c.toNat

/-- `re.sub(r'[^\w\.-]', '_', name)`: replace every character outside
word characters, dot and hyphen by an underscore. -/
def pySubNonWord (l : List Char) : List Char :=
  l.map (fun c => if isPyWordChar c || c = '.' || c = '-' then c else '_')

/-- `re.sub(r'_+', '_', s)`: collapse each maximal run of underscores into a
single underscore, implemented by dropping every underscore that is
immediately followed by another one. -/
def collapseUnderscores : List Char → List Char
  | [] => []
  | [c] => [c]
  | a :: b :: t =>
    if a = '_' && b = '_' then collapseUnderscores (b :: t)
    else a :: collapseUnderscores (b :: t)

/-- Python `str.strip('_')`: remove leading and trailing underscores. -/
def pyStripUnderscores (l : List Char) : List Char :=
  ((l.dropWhile (fun c => c = '_')).reverse.dropWhile (fun c => c = '_')).reverse

/-- `sanitize_filename`: strip whitespace, split off the extension, strip the
name part again, replace non-word characters by `_`, collapse `_` runs, trim
leading/trailing `_`, and re-attach the lower-cased (otherwise unmodified)
extension. -/
def sanitize_filename (filename : List Char) : List Char :=
  let stripped := pyStrip filename
  let ne := pySplitext stripped
  let name := pyStrip ne.1
  let sanitized1 := pySubNonWord name
  let sanitized2 := collapseUnderscores sanitized1
  let sanitized3 := pyStripUnderscores sanitized2
  sanitized3 ++ ne.2.map Char.toLower

/-- `sanitize_filename` on `String` (used where the bot passes file names
around as strings). -/
def sanitize_filename_str (filename : String) : String :=
  String.mk (sanitize_filename filename.data)

/-! ### `test_url_accessibility` (instagram_bot.py lines 261-294)

The two HTTP requests are oracles: `some status` is a completed response
with that status code, `none` is a raised request exception (timeout or
other `RequestException`), which the function catches and turns into
`False`.  The GET is only issued when the HEAD status equals
`HTTP_SUCCESS_CODE`; its status code is printed but never branched on. -/

def test_url_accessibility (headResult : Option Nat) (getResult : Option Nat) : Bool :=
  match headResult with
  | none => false
  | some status =>
    if status = HTTP_SUCCESS_CODE then
      match getResult with
      | none => false
      | some _ => true
    else false

/-! ### Token manager (instagram_bot.py lines 62-188)

`InstagramTokenManager` state: the in-memory token and expiry, plus the
persisted token file.  Datetimes are `Int` microseconds. -/

/-- Contents of the persisted token file relevant to the manager
(`access_token` and `expires_at`; `last_updated` is never read back). -/
structure TokenFileData where
  access_token : Option String
  expires_at : Option Int
  deriving DecidableEq, Repr

structure TMState where
  current_token : Option String
  token_expires_at : Option Int
  token_file : Option TokenFileData
  deriving DecidableEq, Repr

/-- `save_token_to_file`: overwrite the file with the in-memory state.
The model lets the write succeed (its `except` clause only logs). -/
def save_token_to_file (st : TMState) : TMState :=
  { st with token_file := some ⟨st.current_token, st.token_expires_at⟩ }

/-- `is_token_valid`.  `tokenInfoOk` is the oracle for the live
`get_token_info()` call made when no expiry is known (`True` models a
success, i.e. `is not None`). -/
def is_token_valid (st : TMState) (now : Int) (tokenInfoOk : Bool) : Bool :=
  match st.current_token with
  | none => false
  | some _ =>
    match st.token_expires_at with
    | none => tokenInfoOk
    | some expiresAt =>
      if expiresAt ≤ now + TOKEN_EXPIRY_WARNING_DAYS * usPerDay then false
      else true

/-- What the token-exchange HTTP endpoint answered: the status code,
whether the body parsed as JSON, and the value at key `access_token` if
present.  A raised request exception is modelled by `Option.none` at the
call site. -/
structure ExchangeHttpResponse where
  status : Nat
  jsonOk : Bool
  accessTokenField : Option String
  deriving DecidableEq, Repr

/-- `exchange_for_long_lived_token`.  On HTTP 200 with a parsable body
holding `access_token`, store the token, set expiry to
now + 60 days, persist, return `True`; every other outcome (request
exception, non-200 status, JSON error, missing key - all caught by the
`try`/`except`) returns `False` without touching any state. -/
def exchange_for_long_lived_token (st : TMState) (now : Int)
    (resp : Option ExchangeHttpResponse) : Bool × TMState :=
  match resp with
  | none => (false, st)
  | some r =>
    if r.status = HTTP_SUCCESS_CODE then
      if r.jsonOk then
        match r.accessTokenField with
        | some tok =>
          let st1 : TMState :=
            { st with
              current_token := some tok,
              token_expires_at := some (now + LONG_LIVED_TOKEN_DURATION_DAYS * usPerDay) }
          (true, save_token_to_file st1)
        | none => (false, st)
      else (false, st)
    else (false, st)

/-- `get_valid_token`: the current token when `is_token_valid`, else `None`
(plus operator instructions on stdout). -/
def get_valid_token (st : TMState) (now : Int) (tokenInfoOk : Bool) : Option String :=
  if is_token_valid st now tokenInfoOk then st.current_token else none

/-! ### `HashtagManager` (instagram_bot.py lines 397-421)

`random.sample(pool, n)` draws `n` distinct *positions* of the pool; the
drawn index list is the randomness oracle, constrained by `IsSampleDraw`. -/

def pySample (pool : List String) (idxs : List Nat) : List String :=
  idxs.map (fun i => pool.getD i "")

/-- The index list is a possible outcome of
`random.sample(pool, min(k, pool.length))`: distinct in-range indices,
exactly `min k pool.length` of them. -/
def IsSampleDraw (pool : List String) (k : Nat) (idxs : List Nat) : Prop :=
  idxs.Nodup ∧ idxs.length = min k pool.length ∧ ∀ i ∈ idxs, i < pool.length

instance (pool : List String) (k : Nat) (idxs : List Nat) :
    Decidable (IsSampleDraw pool k idxs) := by
  unfold IsSampleDraw; infer_instance

/-- `get_random_hashtags`: empty pool gives the empty string, otherwise the
sampled tags joined by single spaces.  The draw size is carried by the
`IsSampleDraw` constraint on `idxs`. -/
def get_random_hashtags (pool : List String) (idxs : List Nat) : String :=
  if pool.isEmpty then ""
  else String.intercalate " " (pySample pool idxs)

/-! ### Publisher (instagram_bot.py lines 427-555)

Each call returns the dict the Python function returns, together with the
list of graph-API requests it issued (so "no network call" is the empty
list). -/

/-- A remote graph-API JSON response, as far as the bot inspects it:
whether the key `error` is present, and the value of the key `id`. -/
structure RemoteJson where
  hasError : Bool
  idField : Option String
  deriving DecidableEq, Repr

/-- A Python dict returned by a publisher function: either the locally
built error dict with the given message under
`error -> message`, or the remote response body. -/
inductive PyObj where
  | errObj (message : String)
  | remoteJson (r : RemoteJson)
  deriving DecidableEq, Repr

/-- `'error' in res`. -/
def hasErrorKey : PyObj → Bool
  | .errObj _ => true
  | .remoteJson r => r.hasError

/-- `res['id']` when `'id' in res`, else `none`. -/
def idKey : PyObj → Option String
  | .errObj _ => none
  | .remoteJson r => r.idField

inductive GraphEndpoint where
  | media
  | media_publish
  /-- The token-validation endpoint `GRAPH_URL + "me"` hit by
  `get_token_info`. -/
  | me
  deriving DecidableEq, Repr

/-- A POST to `GRAPH_URL + IG_ACCOUNT_ID + endpoint` with these params. -/
structure GraphRequest where
  endpoint : GraphEndpoint
  params : List (String × String)
  deriving DecidableEq, Repr

/-- Message of the locally built dict returned when `get_valid_token`
yields `None`. -/
def noTokenMessage : String := "No valid access token available"

/-- Message of the locally built dict returned when the POST raises
(Python interpolates the exception text; the model keeps the fixed
prefix). -/
def requestFailedMessage : String := "Request failed"

/-- `post_video`, given the already-fetched token: the function body after
the `get_current_access_token()` line.  `accessToken` is that call's
result; `net` is the POST oracle (`none` = raised request exception,
`some r` = response with JSON body `r`).  The full operation including the
token fetch's own graph traffic is `post_video_op` below. -/
def post_video (accessToken : Option String) (net : Option RemoteJson)
    (caption : String) (video_url : String) : PyObj × List GraphRequest :=
  match accessToken with
  | none => (.errObj noTokenMessage, [])
  | some tok =>
    let req : GraphRequest :=
      ⟨.media, [("access_token", tok), ("caption", caption), ("video_url", video_url),
                ("media_type", "REELS"), ("thumb_offset", REELS_THUMB_OFFSET)]⟩
    match net with
    | none => (.errObj requestFailedMessage, [req])
    | some r => (.remoteJson r, [req])

/-- `post_image`, given the already-fetched token (full operation:
`post_image_op`). -/
def post_image (accessToken : Option String) (net : Option RemoteJson)
    (caption : String) (image_url : String) : PyObj × List GraphRequest :=
  match accessToken with
  | none => (.errObj noTokenMessage, [])
  | some tok =>
    let req : GraphRequest :=
      ⟨.media, [("access_token", tok), ("caption", caption), ("image_url", image_url)]⟩
    match net with
    | none => (.errObj requestFailedMessage, [req])
    | some r => (.remoteJson r, [req])

/-- `post_story`, given the already-fetched token (the `caption` argument
is printed but not sent; full operation: `post_story_op`). -/
def post_story (accessToken : Option String) (net : Option RemoteJson)
    (_caption : String) (image_url : String) : PyObj × List GraphRequest :=
  match accessToken with
  | none => (.errObj noTokenMessage, [])
  | some tok =>
    let req : GraphRequest :=
      ⟨.media, [("access_token", tok), ("image_url", image_url),
                ("media_type", "STORIES")]⟩
    match net with
    | none => (.errObj requestFailedMessage, [req])
    | some r => (.remoteJson r, [req])

/-- `publish_container`, given the already-fetched token (full operation:
`publish_container_op`). -/
def publish_container (accessToken : Option String) (net : Option RemoteJson)
    (creation_id : String) : PyObj × List GraphRequest :=
  match accessToken with
  | none => (.errObj noTokenMessage, [])
  | some tok =>
    let req : GraphRequest :=
      ⟨.media_publish, [("access_token", tok), ("creation_id", creation_id)]⟩
    match net with
    | none => (.errObj requestFailedMessage, [req])
    | some r => (.remoteJson r, [req])

/-! ### `get_current_access_token` and the full publisher operations

`get_current_access_token()` (instagram_bot.py lines 388-391) builds a
fresh `InstagramTokenManager(APP_ID, APP_SECRET)` - which loads
`{access_token, expires_at}` from the token file when it exists - and
returns `get_valid_token()`.  When a token is stored but no expiry is
recorded, `is_token_valid` falls back to a live `get_token_info()` call:
`requests.get(GRAPH_URL + "me")` - a graph-API request.  The model
therefore returns the token (or `none`) together with the list of graph
requests that call tree issued.  `meResp` is the oracle for that GET
(`some status` = completed response with a parsable body, `none` = raised
exception or unparsable body - both caught and turned into `None`). -/

def get_current_access_token (tokenFile : Option TokenFileData) (now : Int)
    (meResp : Option Nat) : Option String × List GraphRequest :=
  match tokenFile with
  | none => (none, [])
  | some fd =>
    match fd.access_token with
    | none => (none, [])
    | some tok =>
      match fd.expires_at with
      | none =>
        match meResp with
        | none => (none, [⟨.me, [("access_token", tok)]⟩])
        | some status =>
          if status = HTTP_SUCCESS_CODE then (some tok, [⟨.me, [("access_token", tok)]⟩])
          else (none, [⟨.me, [("access_token", tok)]⟩])
      | some expiresAt =>
        if expiresAt ≤ now + TOKEN_EXPIRY_WARNING_DAYS * usPerDay then (none, [])
        else (some tok, [])

/-- The full `post_image` operation: the token fetch's graph requests
followed by the body's. -/
def post_image_op (tokenFile : Option TokenFileData) (now : Int) (meResp : Option Nat)
    (net : Option RemoteJson) (caption image_url : String) : PyObj × List GraphRequest :=
  ((post_image (get_current_access_token tokenFile now meResp).1 net caption image_url).1,
   (get_current_access_token tokenFile now meResp).2 ++
     (post_image (get_current_access_token tokenFile now meResp).1 net caption image_url).2)

/-- The full `post_video` operation. -/
def post_video_op (tokenFile : Option TokenFileData) (now : Int) (meResp : Option Nat)
    (net : Option RemoteJson) (caption video_url : String) : PyObj × List GraphRequest :=
  ((post_video (get_current_access_token tokenFile now meResp).1 net caption video_url).1,
   (get_current_access_token tokenFile now meResp).2 ++
     (post_video (get_current_access_token tokenFile now meResp).1 net caption video_url).2)

/-- The full `post_story` operation. -/
def post_story_op (tokenFile : Option TokenFileData) (now : Int) (meResp : Option Nat)
    (net : Option RemoteJson) (caption image_url : String) : PyObj × List GraphRequest :=
  ((post_story (get_current_access_token tokenFile now meResp).1 net caption image_url).1,
   (get_current_access_token tokenFile now meResp).2 ++
     (post_story (get_current_access_token tokenFile now meResp).1 net caption image_url).2)

/-- The full `publish_container` operation. -/
def publish_container_op (tokenFile : Option TokenFileData) (now : Int) (meResp : Option Nat)
    (net : Option RemoteJson) (creation_id : String) : PyObj × List GraphRequest :=
  ((publish_container (get_current_access_token tokenFile now meResp).1 net creation_id).1,
   (get_current_access_token tokenFile now meResp).2 ++
     (publish_container (get_current_access_token tokenFile now meResp).1 net creation_id).2)

/-! ### `clean_filename_for_caption` (instagram_bot.py lines 346-377) -/

/-- `re.sub(r'_\d+$', '', filename)`: drop a trailing underscore followed by
one or more digits. -/
def stripNumericSuffix (l : List Char) : List Char :=
  let r := l.reverse
  let ds := r.takeWhile Char.isDigit
  if ds.isEmpty then l
  else
    match r.drop ds.length with
    | '_' :: rest => rest.reverse
    | _ => l

def captionWordSuffixes : List (List Char) :=
  ["_copy".data, "_final".data, "_new".data, "_old".data, "_backup".data]

/-- `re.sub(r'_(copy|final|new|old|backup)$', '', s, flags=IGNORECASE)`:
drop one of the listed suffixes, matched case-insensitively.  (No two of
the alternatives can be suffixes of the same string, so at most one
matches.) -/
def stripWordSuffix (l : List Char) : List Char :=
  let low := l.map Char.toLower
  match captionWordSuffixes.find? (fun s => decide (s <:+ low)) with
  | some s => l.take (l.length - s.length)
  | none => l

def clean_filename_for_caption (filename : List Char) : List Char :=
  stripWordSuffix (stripNumericSuffix filename)

/-! ### One cycle of `main` (instagram_bot.py lines 670-787)

One iteration of the `while True:` loop, as the trace of externally visible
actions it performs.  The environment bundles every oracle the iteration
consumes: the random file pick, the filesystem answers, whether the SFTP
upload raises, the two URL-probe requests, and a token/response pair for
each potential graph-API call (each publisher function fetches its own
token).  Waits, log output and caption randomness do not produce actions. -/

/-- An externally visible action of one cycle (named `BotAction`: `Action` is taken by Mathlib). -/
inductive BotAction where
  /-- `upload_to_sftp` returned normally, having stored `remoteName`. -/
  | sftpUpload (localPath : String) (remoteName : String)
  /-- `delete_from_sftp remoteName` was called. -/
  | sftpDelete (remoteName : String)
  /-- `delete_file path` was called (local deletion). -/
  | localDelete (path : String)
  /-- A graph-API request was issued. -/
  | graph (g : GraphRequest)
  deriving DecidableEq, Repr

structure CycleEnv where
  /-- `random_file_info` result: `(file_name_without_extension,
  file_name_with_extension, full_path)`, or `none` when the directory is
  missing or empty. -/
  selected : Option (String × String × String)
  /-- `os.path.exists(full_path)` inside `validate_media_file`. -/
  fsExists : Bool
  /-- `os.path.getsize(full_path)`. -/
  sizeBytes : Nat
  /-- `upload_to_sftp` returned normally (`false` = it raised). -/
  uploadOk : Bool
  headResult : Option Nat
  getResult : Option Nat
  /-- `get_random_hashtags()` result used in the caption. -/
  hashtags : String
  videoToken : Option String
  videoNet : Option RemoteJson
  imageToken : Option String
  imageNet : Option RemoteJson
  publishToken : Option String
  publishNet : Option RemoteJson
  storyToken : Option String
  storyNet : Option RemoteJson
  storyPubToken : Option String
  storyPubNet : Option RemoteJson
  deriving Repr

/-- The graph-API part of an image cycle (instagram_bot.py lines 728-769):
post the image; unless it errored and provided an `id`, publish it; on
success post the story best-effort and publish it likewise. -/
def imageBranch (env : CycleEnv) (caption : String) (webUrl : String) :
    List GraphRequest :=
  let ir := post_image env.imageToken env.imageNet caption webUrl
  ir.2 ++
    (if hasErrorKey ir.1 then []
     else
       match idKey ir.1 with
       | none => []
       | some cid =>
         let pr := publish_container env.publishToken env.publishNet cid
         pr.2 ++
           (if hasErrorKey pr.1 then []
            else
              let sr := post_story env.storyToken env.storyNet caption webUrl
              sr.2 ++
                (if hasErrorKey sr.1 then []
                 else
                   match idKey sr.1 with
                   | none => []
                   | some sid =>
                     (publish_container env.storyPubToken env.storyPubNet sid).2)))

/-- One iteration of the main loop, as its action trace.  `webDir` is
`WEB_DIR_PATH` (from the untracked `config_security.py`). -/
def run_cycle (webDir : String) (env : CycleEnv) : List BotAction :=
  match env.selected with
  | none => []
  | some (base, nameExt, fullPath) =>
    if !(validate_media_file fullPath env.fsExists env.sizeBytes).1 then []
    else if !env.uploadOk then []
    else
      let remoteName := sanitize_filename_str nameExt
      let webUrl := webDir ++ remoteName
      let stage := [BotAction.sftpUpload fullPath remoteName]
      if !test_url_accessibility env.headResult env.getResult then
        stage ++ [BotAction.sftpDelete remoteName]
      else
        let caption :=
          String.mk (clean_filename_for_caption base.data) ++ "\n\n" ++ env.hashtags
        let apiReqs :=
          if is_video_file nameExt then
            (post_video env.videoToken env.videoNet caption webUrl).2
          else imageBranch env caption webUrl
        stage ++ apiReqs.map BotAction.graph ++
          [BotAction.sftpDelete remoteName, BotAction.localDelete fullPath]

/-! ### Predicates used to state the claims -/

/-- The character class of the spec regex
`[A-Za-z0-9._-]` (`Char.isAlphanum` is exactly `[A-Za-z0-9]`). -/
def allowedChar (c : Char) : Bool :=
  c.isAlphanum || c = '.' || c = '-' || c = '_'

/-- No two consecutive underscores. -/
def noDoubleUnderscore : List Char → Bool
  | [] => true
  | [_] => true
  | a :: b :: t => !(a = '_' && b = '_') && noDoubleUnderscore (b :: t)

/-- The characters `[A-Za-z0-9.-]`, enumerated (letters, digits, dot,
hyphen - the allowed class without the underscore). -/
def extKeepChars : List Char :=
  "ABCDEFGHIJKLMNOPQRSTUVWXYZabcdefghijklmnopqrstuvwxyz0123456789.-".data

def isSftpUpload : BotAction → Bool
  | .sftpUpload _ _ => true
  | _ => false

def isLocalDelete : BotAction → Bool
  | .localDelete _ => true
  | _ => false

def isGraphCall : BotAction → Bool
  | .graph _ => true
  | _ => false

/-- A concrete cycle environment: a valid 0-byte image is selected, the
SFTP upload succeeds, and the URL probe's HEAD request answers 404. -/
def envProbeFail : CycleEnv :=
  { selected := some ("a", "a.jpg", "dir/a.jpg")
    fsExists := true
    sizeBytes := 0
    uploadOk := true
    headResult := some 404
    getResult := some 200
    hashtags := ""
    videoToken := none, videoNet := none
    imageToken := none, imageNet := none
    publishToken := none, publishNet := none
    storyToken := none, storyNet := none
    storyPubToken := none, storyPubNet := none }

/-- The same environment with a succeeding URL probe. -/
def envProbeOk : CycleEnv :=
  { envProbeFail with headResult := some 200 }

/-! ## Theorems -/

/-! ### Helper lemmas for `validate_media_file` -/

theorem validate_video_oversize (path : String) (size : Nat)
    (hv : is_video_file path = true) (hs : MAX_VIDEO_SIZE_MB * MB_TO_BYTES < size) :
    validate_media_file path true size = (false, "Video too large (max 100MB)") := by
  simp [validate_media_file, hv, hs]
  rfl

theorem validate_image_oversize (path : String) (size : Nat)
    (hv : is_video_file path = false) (hs : MAX_IMAGE_SIZE_MB * MB_TO_BYTES < size) :
    validate_media_file path true size = (false, "Image too large (max 8MB)") := by
  simp [validate_media_file, hv, hs]
  rfl

theorem validate_video_at_limit (path : String)
    (hv : is_video_file path = true) :
    validate_media_file path true (MAX_VIDEO_SIZE_MB * MB_TO_BYTES) = (true, "Valid") := by
  simp [validate_media_file, hv]

theorem validate_image_at_limit (path : String)
    (hv : is_video_file path = false) :
    validate_media_file path true (MAX_IMAGE_SIZE_MB * MB_TO_BYTES) = (true, "Valid") := by
  simp [validate_media_file, hv]

/-! ### C5: size ceilings of `validate_media_file` -/

/-- C5: for an existing file, a size strictly above the class ceiling
(video ceiling for video extensions, image ceiling otherwise) is rejected
with the reason string naming that class's limit, while a size exactly
equal to the class ceiling is accepted (the boundary is inclusive). -/
theorem validate_media_file_size_policy (path : String) (size : Nat) :
    (is_video_file path = true → MAX_VIDEO_SIZE_MB * MB_TO_BYTES < size →
      validate_media_file path true size = (false, "Video too large (max 100MB)")) ∧
    (is_video_file path = false → MAX_IMAGE_SIZE_MB * MB_TO_BYTES < size →
      validate_media_file path true size = (false, "Image too large (max 8MB)")) ∧
    (is_video_file path = true →
      validate_media_file path true (MAX_VIDEO_SIZE_MB * MB_TO_BYTES) = (true, "Valid")) ∧
    (is_video_file path = false →
      validate_media_file path true (MAX_IMAGE_SIZE_MB * MB_TO_BYTES) = (true, "Valid")) :=
  ⟨fun hv hs => validate_video_oversize path size hv hs,
   fun hv hs => validate_image_oversize path size hv hs,
   fun hv => validate_video_at_limit path hv,
   fun hv => validate_image_at_limit path hv⟩

/-- Witness for C5 at concrete inputs: a 100MB+1 video is rejected with the
video reason, a video of exactly 100MB and an image of exactly 8MB are
accepted, an 8MB+1 image is rejected with the image reason. -/
theorem validate_media_file_size_policy_witness :
    validate_media_file "a.mp4" true (104857600 + 1) = (false, "Video too large (max 100MB)") ∧
    validate_media_file "a.jpg" true (8388608 + 1) = (false, "Image too large (max 8MB)") ∧
    validate_media_file "a.mp4" true 104857600 = (true, "Valid") ∧
    validate_media_file "a.jpg" true 8388608 = (true, "Valid") :=
  ⟨(validate_media_file_size_policy "a.mp4" (104857600 + 1)).1 (by decide) (by decide),
   (validate_media_file_size_policy "a.jpg" (8388608 + 1)).2.1 (by decide) (by decide),
   (validate_media_file_size_policy "a.mp4" 104857600).2.2.1 (by decide),
   (validate_media_file_size_policy "a.jpg" 8388608).2.2.2 (by decide)⟩

/-! ### C4: the token expiry warning window -/

/-- C4: with a token present and expiry set to now + N days, the token is
treated as invalid exactly when N ≤ TOKEN_EXPIRY_WARNING_DAYS (the boundary
N = warning window counts as invalid), and as valid when N is larger. -/
theorem is_token_valid_warning_window (tok : String) (fileData : Option TokenFileData)
    (now N : Int) (infoOk : Bool) :
    (N ≤ TOKEN_EXPIRY_WARNING_DAYS →
      is_token_valid ⟨some tok, some (now + N * usPerDay), fileData⟩ now infoOk = false) ∧
    (TOKEN_EXPIRY_WARNING_DAYS < N →
      is_token_valid ⟨some tok, some (now + N * usPerDay), fileData⟩ now infoOk = true) := by
  constructor <;> intro h <;>
    simp only [is_token_valid, TOKEN_EXPIRY_WARNING_DAYS, usPerDay] at h ⊢
  · rw [if_pos (by omega)]
  · rw [if_neg (by omega)]

/-- Witness for C4: at the boundary (expiry in exactly 7 days) the token is
invalid; at 8 days it is valid. -/
theorem is_token_valid_warning_window_witness :
    is_token_valid ⟨some "tok", some (0 + 7 * usPerDay), none⟩ 0 true = false ∧
    is_token_valid ⟨some "tok", some (0 + 8 * usPerDay), none⟩ 0 true = true :=
  ⟨(is_token_valid_warning_window "tok" none 0 7 true).1 (by decide),
   (is_token_valid_warning_window "tok" none 0 8 true).2 (by decide)⟩

/-! ### C7: failed token exchange leaves all state unchanged -/

/-- C7: when the exchange request raises or answers with a non-success
status, `exchange_for_long_lived_token` returns failure and the state -
in-memory token, in-memory expiry, persisted file - is exactly the prior
state. -/
theorem exchange_failure_preserves_state (st : TMState) (now : Int)
    (resp : Option ExchangeHttpResponse)
    (h : resp = none ∨ ∃ r, resp = some r ∧ r.status ≠ HTTP_SUCCESS_CODE) :
    exchange_for_long_lived_token st now resp = (false, st) := by
  rcases h with h | ⟨r, hr, hs⟩
  · subst h; rfl
  · subst hr; simp [exchange_for_long_lived_token, hs]

/-- Witness for C7: a 400 response leaves a concrete prior state intact. -/
theorem exchange_failure_preserves_state_witness :
    exchange_for_long_lived_token ⟨some "old", some 5, some ⟨some "old", some 5⟩⟩ 0
        (some ⟨400, true, some "new"⟩) =
      (false, ⟨some "old", some 5, some ⟨some "old", some 5⟩⟩) :=
  exchange_failure_preserves_state ⟨some "old", some 5, some ⟨some "old", some 5⟩⟩ 0
    (some ⟨400, true, some "new"⟩) (Or.inr ⟨⟨400, true, some "new"⟩, rfl, by decide⟩)

/-! ### C8: publisher operations without a valid token -/

/-- C8 counterexample: with a stored token that has no recorded expiry and
a failing validation response, each publisher operation ends in the
no-token local error, yet its call tree has issued a GET to the graph
API's `me` endpoint - so "performs no network request to the graph API"
fails as stated. -/
theorem publisher_token_validation_get_counterexample :
    post_image_op (some ⟨some "tok", none⟩) 0 (some 400) none "c" "u" =
      (PyObj.errObj noTokenMessage,
        [⟨GraphEndpoint.me, [("access_token", "tok")]⟩]) ∧
    post_video_op (some ⟨some "tok", none⟩) 0 (some 400) none "c" "u" =
      (PyObj.errObj noTokenMessage,
        [⟨GraphEndpoint.me, [("access_token", "tok")]⟩]) ∧
    post_story_op (some ⟨some "tok", none⟩) 0 (some 400) none "c" "u" =
      (PyObj.errObj noTokenMessage,
        [⟨GraphEndpoint.me, [("access_token", "tok")]⟩]) ∧
    publish_container_op (some ⟨some "tok", none⟩) 0 (some 400) none "i" =
      (PyObj.errObj noTokenMessage,
        [⟨GraphEndpoint.me, [("access_token", "tok")]⟩]) :=
  ⟨rfl, rfl, rfl, rfl⟩

/-- C8 (amended): whenever `get_current_access_token` yields no valid
token, each publisher operation returns the locally built error dict
(message under `error` / `message`) and issues no POST to the publishing
endpoints: its graph traffic is exactly the token fetch's own, which
consists only of `me` token-validation GETs, and is empty whenever the
stored state has no token or has a recorded expiry.  (When a stored token
lacks an expiry the fetch does issue one validation GET - the
counterexample.) -/
theorem publisher_no_valid_token_policy (tokenFile : Option TokenFileData)
    (now : Int) (meResp : Option Nat) (net : Option RemoteJson)
    (caption url cid : String)
    (h : (get_current_access_token tokenFile now meResp).1 = none) :
    post_image_op tokenFile now meResp net caption url =
      (.errObj noTokenMessage, (get_current_access_token tokenFile now meResp).2) ∧
    post_video_op tokenFile now meResp net caption url =
      (.errObj noTokenMessage, (get_current_access_token tokenFile now meResp).2) ∧
    post_story_op tokenFile now meResp net caption url =
      (.errObj noTokenMessage, (get_current_access_token tokenFile now meResp).2) ∧
    publish_container_op tokenFile now meResp net cid =
      (.errObj noTokenMessage, (get_current_access_token tokenFile now meResp).2) ∧
    (∀ g ∈ (get_current_access_token tokenFile now meResp).2,
      g.endpoint = GraphEndpoint.me) ∧
    ((∀ fd, tokenFile = some fd → fd.access_token = none ∨ fd.expires_at ≠ none) →
      (get_current_access_token tokenFile now meResp).2 = []) := by
  refine ⟨?_, ?_, ?_, ?_, ?_, ?_⟩
  · simp [post_image_op, h, post_image]
  · simp [post_video_op, h, post_video]
  · simp [post_story_op, h, post_story]
  · simp [publish_container_op, h, publish_container]
  · intro g hg
    unfold get_current_access_token at hg
    rcases tokenFile with _ | ⟨a, e⟩
    · simp at hg
    · rcases a with _ | tok
      · simp at hg
      · rcases e with _ | expiresAt
        · rcases meResp with _ | status
          · simp at hg
            subst hg
            rfl
          · by_cases hs : status = HTTP_SUCCESS_CODE
            · simp [hs] at hg
              subst hg
              rfl
            · simp [hs] at hg
              subst hg
              rfl
        · by_cases hw : expiresAt ≤ now + TOKEN_EXPIRY_WARNING_DAYS * usPerDay
          · simp [hw] at hg
          · simp [hw] at hg
  · intro hcond
    unfold get_current_access_token
    rcases tokenFile with _ | ⟨a, e⟩
    · rfl
    · have hfd := hcond ⟨a, e⟩ rfl
      rcases a with _ | tok
      · rfl
      · rcases e with _ | expiresAt
        · rcases hfd with h1 | h2
          · cases h1
          · exact absurd rfl h2
        · by_cases hw : expiresAt ≤ now + TOKEN_EXPIRY_WARNING_DAYS * usPerDay
          · simp [hw]
          · simp [hw]

/-- Witness for C8 (amended): with no token file at all, each operation
returns the local error and the whole call tree issues no request. -/
theorem publisher_no_valid_token_policy_witness :
    post_image_op none 0 none none "c" "u" = (.errObj noTokenMessage, []) ∧
    post_video_op none 0 none none "c" "u" = (.errObj noTokenMessage, []) ∧
    post_story_op none 0 none none "c" "u" = (.errObj noTokenMessage, []) ∧
    publish_container_op none 0 none none "i" = (.errObj noTokenMessage, []) := by
  have h := publisher_no_valid_token_policy none 0 none none "c" "u" "i" rfl
  exact ⟨h.1, h.2.1, h.2.2.1, h.2.2.2.1⟩

/-! ### C9: `test_url_accessibility` and the follow-up GET -/

/-- C9: the probe returns true exactly when the HEAD answers 200 and no
request exception occurs (the GET, issued only after a 200 HEAD, completes);
the GET status code is never inspected - any two completed GET responses
give the same outcome. -/
theorem test_url_accessibility_head_determined (headRes getRes : Option Nat) :
    (test_url_accessibility headRes getRes = true ↔
      headRes = some HTTP_SUCCESS_CODE ∧ ∃ s, getRes = some s) ∧
    (∀ s1 s2, test_url_accessibility headRes (some s1) =
      test_url_accessibility headRes (some s2)) := by
  constructor
  · cases headRes with
    | none => simp [test_url_accessibility]
    | some status =>
      by_cases hs : status = HTTP_SUCCESS_CODE <;>
        cases getRes <;> simp [test_url_accessibility, hs]
  · intro s1 s2
    cases headRes with
    | none => rfl
    | some status =>
      by_cases hs : status = HTTP_SUCCESS_CODE <;> simp [test_url_accessibility, hs]

/-! ### C10: `is_video_file` and dotless names -/

theorem rfindDot_eq_neg_one {l : List Char} (h : '.' ∉ l) : rfindDot l = -1 := by
  induction l with
  | nil => rfl
  | cons c rest ih =>
    have h1 : '.' ≠ c := fun e => h (e ▸ List.mem_cons_self c rest)
    have h2 : '.' ∉ rest := fun e => h (List.mem_cons_of_mem c e)
    simp only [rfindDot, ih h2]
    rw [if_neg (by norm_num), if_neg (by intro e; exact h1 e.symm)]

theorem video_ext_min_length : ∀ s ∈ VIDEO_EXTENSIONS, 4 ≤ s.data.length := by decide

theorem is_video_file_no_dot (f : String) (h : '.' ∉ f.data) : is_video_file f = false := by
  simp only [is_video_file]
  rw [rfindDot_eq_neg_one h]
  apply decide_eq_false
  intro hmem
  have hlen4 := video_ext_min_length _ hmem
  simp [pySliceFrom] at hlen4
  omega

/-- C10: `is_video_file` holds exactly when the lower-cased slice from the
last dot to the end is one of `VIDEO_EXTENSIONS`; a dotless name (where the
slice degenerates to the final character) is never video, and such a file is
therefore validated against the image size ceiling. -/
theorem is_video_file_extension_charact (f : String) :
    (is_video_file f = true ↔
      String.mk ((pySliceFrom f.data (rfindDot f.data)).map Char.toLower) ∈
        VIDEO_EXTENSIONS) ∧
    ('.' ∉ f.data → is_video_file f = false) ∧
    ('.' ∉ f.data → ∀ size : Nat, MAX_IMAGE_SIZE_MB * MB_TO_BYTES < size →
      validate_media_file f true size = (false, "Image too large (max 8MB)")) := by
  refine ⟨?_, fun h => is_video_file_no_dot f h,
    fun h size hs => validate_image_oversize f size (is_video_file_no_dot f h) hs⟩
  simp only [is_video_file]
  exact decide_eq_true_iff

/-- Witness for C10: `"video"` has no dot, is not classified as video, and
an oversize check on it uses the image ceiling. -/
theorem is_video_file_extension_charact_witness :
    is_video_file "video" = false ∧
    validate_media_file "video" true 8388609 = (false, "Image too large (max 8MB)") :=
  ⟨(is_video_file_extension_charact "video").2.1 (by decide),
   (is_video_file_extension_charact "video").2.2 (by decide) 8388609 (by decide)⟩

/-! ### C6: `get_random_hashtags` sampling -/

/-- C6 (amended): a sample draw returns exactly `min k P` tags; the tags are
pairwise distinct whenever the pool has no duplicate entries; the empty pool
yields the empty string.  (A pool with a repeated line can yield repeated
tags - see the counterexample.) -/
theorem get_random_hashtags_sample_spec (pool : List String) (k : Nat) (idxs : List Nat)
    (h : IsSampleDraw pool k idxs) :
    (pySample pool idxs).length = min k pool.length ∧
    (pool.Nodup → (pySample pool idxs).Nodup) ∧
    (pool = [] → get_random_hashtags pool idxs = "") := by
  obtain ⟨hnd, hlen, hlt⟩ := h
  refine ⟨by simpa [pySample] using hlen, fun hp => ?_,
    fun hp => by simp [get_random_hashtags, hp]⟩
  apply List.Nodup.map_on ?_ hnd
  intro i hi j hj heq
  have hi' := hlt i hi
  have hj' := hlt j hj
  rw [List.getD_eq_getElem?_getD, List.getD_eq_getElem?_getD,
    List.getElem?_eq_getElem hi', List.getElem?_eq_getElem hj'] at heq
  simp only [Option.getD_some] at heq
  exact (List.Nodup.getElem_inj_iff hp).mp heq

/-- C6 counterexample: on the pool `["#a", "#a"]` (a hashtag file with the
same line twice) every size-2 draw returns the duplicate tag twice, so the
"no duplicate tags" part of the claim fails as stated. -/
theorem get_random_hashtags_duplicates_counterexample :
    IsSampleDraw ["#a", "#a"] 2 [0, 1] ∧
    ¬ (pySample ["#a", "#a"] [0, 1]).Nodup ∧
    get_random_hashtags ["#a", "#a"] [0, 1] = "#a #a" :=
  ⟨by decide, by decide, rfl⟩

/-- Witness for C6 (amended): a duplicate-free pool of size 2, asked for 5
tags, returns exactly 2 distinct tags; the empty pool returns "". -/
theorem get_random_hashtags_sample_spec_witness :
    (pySample ["#x", "#y"] [1, 0]).length = min 5 (["#x", "#y"] : List String).length ∧
    (pySample ["#x", "#y"] [1, 0]).Nodup ∧
    get_random_hashtags ([] : List String) [] = "" := by
  have h := get_random_hashtags_sample_spec ["#x", "#y"] 5 [1, 0] (by decide)
  have h2 := get_random_hashtags_sample_spec ([] : List String) 3 [] (by decide)
  exact ⟨h.1, h.2.1 (by decide), h2.2.2 rfl⟩

/-! ### C2 / C3: cleanup discipline of one cycle -/

/-- C2 (amended): once staging succeeded, remote-artifact deletion is
attempted on every exit path of the cycle; local-file deletion is attempted
on every exit path except the URL-reachability-failure path, where the
local file is deliberately kept (only the staged artifact is deleted). -/
theorem run_cycle_cleanup_policy (webDir : String) (env : CycleEnv)
    (base nameExt fullPath : String)
    (hsel : env.selected = some (base, nameExt, fullPath))
    (hval : (validate_media_file fullPath env.fsExists env.sizeBytes).1 = true)
    (hup : env.uploadOk = true) :
    BotAction.sftpDelete (sanitize_filename_str nameExt) ∈ run_cycle webDir env ∧
    (test_url_accessibility env.headResult env.getResult = true →
      BotAction.localDelete fullPath ∈ run_cycle webDir env) ∧
    (test_url_accessibility env.headResult env.getResult = false →
      BotAction.localDelete fullPath ∉ run_cycle webDir env) := by
  by_cases hprobe : test_url_accessibility env.headResult env.getResult = true
  · refine ⟨?_, fun _ => ?_, fun hc => by rw [hc] at hprobe; exact Bool.noConfusion hprobe⟩ <;>
      simp [run_cycle, hsel, hval, hup, hprobe]
  · have hprobe' : test_url_accessibility env.headResult env.getResult = false := by
      cases htest : test_url_accessibility env.headResult env.getResult
      · rfl
      · exact absurd htest hprobe
    refine ⟨?_, fun hc => absurd hc hprobe, fun _ => ?_⟩ <;>
      simp [run_cycle, hsel, hval, hup, hprobe']

/-- C2 counterexample: in the concrete cycle `envProbeFail` staging
succeeds (the upload action is in the trace) and the reachability probe
fails, yet no local-file deletion is attempted before the cycle ends - the
claim's "both deletions on every exit path" fails on this exit path. -/
theorem run_cycle_no_local_delete_counterexample :
    (run_cycle "http://w/" envProbeFail).any isSftpUpload = true ∧
    (run_cycle "http://w/" envProbeFail).any isLocalDelete = false :=
  ⟨by decide, by decide⟩

/-- Witness for C2 (amended), on the probe-success path: both the remote
deletion and the local deletion appear in the trace. -/
theorem run_cycle_cleanup_policy_witness :
    BotAction.sftpDelete "a.jpg" ∈ run_cycle "http://w/" envProbeOk ∧
    BotAction.localDelete "dir/a.jpg" ∈ run_cycle "http://w/" envProbeOk := by
  have h := run_cycle_cleanup_policy "http://w/" envProbeOk "a" "a.jpg" "dir/a.jpg"
    rfl (by decide) rfl
  exact ⟨h.1, h.2.1 rfl⟩

/-- C3: when staging succeeds and the reachability probe fails, the cycle's
whole trace is upload-then-remote-delete: the staged artifact is deleted
before the cycle restarts, the local file is never deleted, and no graph-API
(publish or container-creation) request is made. -/
theorem run_cycle_probe_failure_frame (webDir : String) (env : CycleEnv)
    (base nameExt fullPath : String)
    (hsel : env.selected = some (base, nameExt, fullPath))
    (hval : (validate_media_file fullPath env.fsExists env.sizeBytes).1 = true)
    (hup : env.uploadOk = true)
    (hprobe : test_url_accessibility env.headResult env.getResult = false) :
    run_cycle webDir env =
      [BotAction.sftpUpload fullPath (sanitize_filename_str nameExt),
       BotAction.sftpDelete (sanitize_filename_str nameExt)] ∧
    BotAction.sftpDelete (sanitize_filename_str nameExt) ∈ run_cycle webDir env ∧
    (∀ p, BotAction.localDelete p ∉ run_cycle webDir env) ∧
    (∀ g, BotAction.graph g ∉ run_cycle webDir env) := by
  have htr : run_cycle webDir env =
      [BotAction.sftpUpload fullPath (sanitize_filename_str nameExt),
       BotAction.sftpDelete (sanitize_filename_str nameExt)] := by
    simp [run_cycle, hsel, hval, hup, hprobe]
  refine ⟨htr, ?_, fun p => ?_, fun g => ?_⟩ <;> rw [htr] <;> simp

/-- Witness for C3 at the concrete cycle `envProbeFail`. -/
theorem run_cycle_probe_failure_frame_witness :
    run_cycle "http://w/" envProbeFail =
      [BotAction.sftpUpload "dir/a.jpg" "a.jpg", BotAction.sftpDelete "a.jpg"] := by
  have h := run_cycle_probe_failure_frame "http://w/" envProbeFail "a" "a.jpg" "dir/a.jpg"
    rfl (by decide) rfl rfl
  exact h.1

/-! ### C1: helper lemmas about the sanitizer pipeline -/

theorem mem_dropWhile_of_mem {α : Type} {p : α → Bool} {l : List α} {c : α}
    (hc : c ∈ l) (hp : p c = false) : c ∈ l.dropWhile p := by
  induction l with
  | nil => cases hc
  | cons a t ih =>
    rw [List.dropWhile_cons]
    by_cases ha : p a = true
    · rw [if_pos ha]
      rcases List.mem_cons.1 hc with rfl | hmem
      · rw [hp] at ha; cases ha
      · exact ih hmem
    · rw [if_neg ha]; exact hc

theorem mem_of_mem_stripBoth {α : Type} {p : α → Bool} {l : List α} {c : α}
    (hc : c ∈ ((l.dropWhile p).reverse.dropWhile p).reverse) : c ∈ l := by
  rw [List.mem_reverse] at hc
  have h1 := (List.dropWhile_sublist p).subset hc
  rw [List.mem_reverse] at h1
  exact (List.dropWhile_sublist p).subset h1

theorem mem_stripBoth_of_mem {α : Type} {p : α → Bool} {l : List α} {c : α}
    (hc : c ∈ l) (hp : p c = false) :
    c ∈ ((l.dropWhile p).reverse.dropWhile p).reverse := by
  rw [List.mem_reverse]
  apply mem_dropWhile_of_mem _ hp
  rw [List.mem_reverse]
  exact mem_dropWhile_of_mem hc hp

theorem mem_of_mem_pyStrip {l : List Char} {c : Char} (hc : c ∈ pyStrip l) : c ∈ l :=
  mem_of_mem_stripBoth hc

theorem mem_pyStrip_of_mem {l : List Char} {c : Char}
    (hc : c ∈ l) (hw : c.isWhitespace = false) : c ∈ pyStrip l :=
  mem_stripBoth_of_mem hc hw

theorem mem_of_mem_pyStripUnderscores {l : List Char} {c : Char}
    (hc : c ∈ pyStripUnderscores l) : c ∈ l :=
  mem_of_mem_stripBoth hc

theorem mem_pyStripUnderscores_of_mem {l : List Char} {c : Char}
    (hc : c ∈ l) (hp : c ≠ '_') : c ∈ pyStripUnderscores l :=
  mem_stripBoth_of_mem hc (by simpa using hp)

theorem pySplitext_append (p : List Char) : (pySplitext p).1 ++ (pySplitext p).2 = p := by
  unfold pySplitext
  split
  · split
    · simp
    · simp
  · simp

theorem mem_of_mem_splitext_fst {p : List Char} {c : Char}
    (hc : c ∈ (pySplitext p).1) : c ∈ p := by
  unfold pySplitext at hc
  split at hc
  · split at hc
    · exact hc
    · exact List.take_subset _ _ hc
  · exact hc

theorem collapse_cons : ∀ (b : Char) (t : List Char),
    ∃ r, collapseUnderscores (b :: t) = b :: r
  | _, [] => ⟨[], rfl⟩
  | b, c :: t => by
    obtain ⟨r, hr⟩ := collapse_cons c t
    by_cases h : b = '_' ∧ c = '_'
    · refine ⟨r, ?_⟩
      obtain ⟨hb, hc⟩ := h
      simp only [collapseUnderscores]
      rw [if_pos (by simp [hb, hc])]
      rw [hr, hb, hc]
    · refine ⟨collapseUnderscores (c :: t), ?_⟩
      simp only [collapseUnderscores]
      rw [if_neg (by simpa using h)]

theorem noDouble_collapse : ∀ l : List Char,
    noDoubleUnderscore (collapseUnderscores l) = true
  | [] => rfl
  | [_] => rfl
  | a :: b :: t => by
    have ih := noDouble_collapse (b :: t)
    by_cases h : a = '_' ∧ b = '_'
    · simp only [collapseUnderscores]
      rw [if_pos (by simp [h.1, h.2])]
      exact ih
    · obtain ⟨r, hr⟩ := collapse_cons b t
      simp only [collapseUnderscores]
      rw [if_neg (by simpa using h)]
      rw [hr]
      simp only [noDoubleUnderscore, Bool.and_eq_true]
      constructor
      · by_cases ha : a = '_' <;> by_cases hb : b = '_' <;> simp [ha, hb]
        exact h ⟨ha, hb⟩
      · rw [← hr]; exact ih

theorem mem_of_mem_collapse : ∀ (l : List Char) (c : Char),
    c ∈ collapseUnderscores l → c ∈ l
  | [], c, hc => absurd hc (List.not_mem_nil c)
  | [_], _, hc => hc
  | a :: b :: t, c, hc => by
    have ih := mem_of_mem_collapse (b :: t) c
    simp only [collapseUnderscores] at hc
    by_cases h : (a = '_' && b = '_') = true
    · rw [if_pos h] at hc
      exact List.mem_cons_of_mem a (ih hc)
    · rw [if_neg h] at hc
      rcases List.mem_cons.1 hc with rfl | hm
      · exact List.mem_cons_self _ _
      · exact List.mem_cons_of_mem a (ih hm)

theorem mem_collapse_of_mem : ∀ (l : List Char) (c : Char),
    c ∈ l → c ≠ '_' → c ∈ collapseUnderscores l
  | [], c, hc, _ => absurd hc (List.not_mem_nil c)
  | [_], _, hc, _ => hc
  | a :: b :: t, c, hc, hnu => by
    have ih := mem_collapse_of_mem (b :: t) c
    simp only [collapseUnderscores]
    by_cases h : (a = '_' && b = '_') = true
    · rw [if_pos h]
      rcases List.mem_cons.1 hc with rfl | hm
      · have ha : c = '_' := by
          rw [Bool.and_eq_true] at h
          simpa using h.1
        exact absurd ha hnu
      · exact ih hm hnu
    · rw [if_neg h]
      rcases List.mem_cons.1 hc with rfl | hm
      · exact List.mem_cons_self _ _
      · exact List.mem_cons_of_mem a (ih hm hnu)

theorem noDouble_tail {a : Char} {l : List Char}
    (h : noDoubleUnderscore (a :: l) = true) : noDoubleUnderscore l = true := by
  cases l with
  | nil => rfl
  | cons b t =>
    simp only [noDoubleUnderscore, Bool.and_eq_true] at h
    exact h.2

theorem noDouble_append_right : ∀ (l m : List Char),
    noDoubleUnderscore (l ++ m) = true → noDoubleUnderscore m = true
  | [], _, h => h
  | _ :: t, m, h => noDouble_append_right t m (noDouble_tail h)

theorem noDouble_append_left : ∀ (l m : List Char),
    noDoubleUnderscore (l ++ m) = true → noDoubleUnderscore l = true
  | [], _, _ => rfl
  | [_], _, _ => rfl
  | a :: b :: t, m, h => by
    have h' : noDoubleUnderscore (a :: b :: (t ++ m)) = true := h
    simp only [noDoubleUnderscore, Bool.and_eq_true] at h' ⊢
    exact ⟨h'.1, noDouble_append_left (b :: t) m h'.2⟩

theorem noDouble_of_no_underscore : ∀ l : List Char,
    (∀ c ∈ l, c ≠ '_') → noDoubleUnderscore l = true
  | [], _ => rfl
  | [_], _ => rfl
  | a :: b :: t, h => by
    simp only [noDoubleUnderscore, Bool.and_eq_true]
    refine ⟨?_, noDouble_of_no_underscore (b :: t)
      (fun c hc => h c (List.mem_cons_of_mem a hc))⟩
    have hb : b ≠ '_' := h b (List.mem_cons_of_mem a (List.mem_cons_self b t))
    simp [hb]

theorem noDouble_append_clean : ∀ (l m : List Char),
    noDoubleUnderscore l = true → (∀ c ∈ m, c ≠ '_') →
    noDoubleUnderscore (l ++ m) = true
  | [], m, _, hm => noDouble_of_no_underscore m hm
  | [x], m, _, hm => by
    cases m with
    | nil => rfl
    | cons y t =>
      show noDoubleUnderscore (x :: y :: t) = true
      simp only [noDoubleUnderscore, Bool.and_eq_true]
      have hy : y ≠ '_' := hm y (List.mem_cons_self y t)
      exact ⟨by simp [hy], noDouble_of_no_underscore (y :: t) hm⟩
  | x :: y :: t, m, h, hm => by
    simp only [noDoubleUnderscore, Bool.and_eq_true] at h
    show noDoubleUnderscore (x :: y :: (t ++ m)) = true
    simp only [noDoubleUnderscore, Bool.and_eq_true]
    exact ⟨h.1, noDouble_append_clean (y :: t) m h.2 hm⟩

theorem stripUnderscores_eq_append (l : List Char) :
    ∃ t : List Char, l.dropWhile (fun x => x = '_') = pyStripUnderscores l ++ t := by
  obtain ⟨t2, ht2⟩ :=
    List.dropWhile_suffix (l := (l.dropWhile (fun x => x = '_')).reverse)
      (fun x => x = '_')
  refine ⟨t2.reverse, ?_⟩
  conv_lhs => rw [← List.reverse_reverse (l.dropWhile (fun x => x = '_')), ← ht2]
  rw [List.reverse_append]
  rfl

theorem noDouble_pyStripUnderscores {l : List Char}
    (h : noDoubleUnderscore l = true) :
    noDoubleUnderscore (pyStripUnderscores l) = true := by
  obtain ⟨t, ht⟩ := stripUnderscores_eq_append l
  obtain ⟨t1, ht1⟩ := List.dropWhile_suffix (l := l) (fun x => x = '_')
  have h1 : noDoubleUnderscore (l.dropWhile (fun x => x = '_')) = true :=
    noDouble_append_right t1 _ (by rw [ht1]; exact h)
  exact noDouble_append_left _ t (by rw [← ht]; exact h1)

theorem head?_pyStripUnderscores_ne {l : List Char} {c : Char}
    (h : (pyStripUnderscores l).head? = some c) : c ≠ '_' := by
  obtain ⟨t, ht⟩ := stripUnderscores_eq_append l
  have hh := List.head?_dropWhile_not (fun x => x = '_') l
  rw [ht] at hh
  cases hres : pyStripUnderscores l with
  | nil => rw [hres] at h; cases h
  | cons a r =>
    rw [hres] at h hh
    have hac : a = c := by simpa using h
    subst hac
    simpa using hh

theorem getLast?_pyStripUnderscores_ne {l : List Char} {c : Char}
    (h : (pyStripUnderscores l).getLast? = some c) : c ≠ '_' := by
  unfold pyStripUnderscores at h
  rw [List.getLast?_reverse] at h
  have hh :=
    List.head?_dropWhile_not (fun x => x = '_')
      (l.dropWhile (fun x => x = '_')).reverse
  rw [h] at hh
  simpa using hh

theorem allowed_of_mem_pySubNonWord {l : List Char}
    (hascii : ∀ c ∈ l, c.toNat < 128) :
    ∀ c ∈ pySubNonWord l, allowedChar c = true := by
  intro c hc
  obtain ⟨a, ha, hfa⟩ := List.mem_map.1 hc
  by_cases hk : (isPyWordChar a || a = '.' || a = '-') = true
  · rw [if_pos hk] at hfa
    subst hfa
    have h128 := hascii a ha
    simp only [isPyWordChar, Bool.or_eq_true, decide_eq_true_eq] at hk
    simp only [allowedChar, Bool.or_eq_true, decide_eq_true_eq]
    rcases hk with (((h1 | h2) | h3) | h4) | h5
    · exact Or.inl (Or.inl (Or.inl h1))
    · exact Or.inr h2
    · omega
    · exact Or.inl (Or.inl (Or.inr h4))
    · exact Or.inl (Or.inr h5)
  · rw [if_neg hk] at hfa
    rw [← hfa]
    decide

theorem extKeep_facts : ∀ c ∈ extKeepChars,
    allowedChar (Char.toLower c) = true ∧ (Char.toLower c).isUpper = false ∧
    Char.toLower c ≠ '_' ∧ c ≠ '_' ∧ c.isWhitespace = false ∧
    (isPyWordChar c || c = '.' || c = '-') = true := by decide

/-- C1 (amended): for an ASCII input filename whose extension (as computed
by `splitext` after the outer whitespace strip) consists only of letters,
digits, dots and hyphens, and in which at least one character of the
stripped filename is a letter, digit, dot or hyphen, the output of
`sanitize_filename` is nonempty, consists only of characters in
`[A-Za-z0-9._-]`, has no two consecutive underscores, neither starts nor
ends with an underscore, and ends in the lower-cased extension, which
contains no uppercase letter.  (The extension part is lower-cased but not
otherwise sanitized, and Python `\w` keeps Unicode word characters - the
counterexample shows the original unrestricted claim fails.) -/
theorem sanitize_filename_sound (f : List Char)
    (hascii : ∀ c ∈ f, c.toNat < 128)
    (hext : ∀ c ∈ (pySplitext (pyStrip f)).2, c ∈ extKeepChars)
    (hsome : ∃ c ∈ pyStrip f, c ∈ extKeepChars) :
    sanitize_filename f ≠ [] ∧
    (sanitize_filename f).all allowedChar = true ∧
    noDoubleUnderscore (sanitize_filename f) = true ∧
    (sanitize_filename f).head? ≠ some '_' ∧
    (sanitize_filename f).getLast? ≠ some '_' ∧
    ((pySplitext (pyStrip f)).2.map Char.toLower) <:+ sanitize_filename f ∧
    (∀ c ∈ (pySplitext (pyStrip f)).2.map Char.toLower, c.isUpper = false) := by
  obtain ⟨nm, ex, hsplit⟩ : ∃ nm ex, pySplitext (pyStrip f) = (nm, ex) := ⟨_, _, rfl⟩
  have hcat : nm ++ ex = pyStrip f := by
    have h := pySplitext_append (pyStrip f)
    rwa [hsplit] at h
  have hout : sanitize_filename f =
      pyStripUnderscores (collapseUnderscores (pySubNonWord (pyStrip nm))) ++
        ex.map Char.toLower := by
    show pyStripUnderscores
        (collapseUnderscores (pySubNonWord (pyStrip (pySplitext (pyStrip f)).1))) ++
        (pySplitext (pyStrip f)).2.map Char.toLower = _
    rw [hsplit]
  have hexmem : ∀ c ∈ ex, c ∈ extKeepChars := by
    intro c hc
    apply hext
    rw [hsplit]
    exact hc
  have hnmascii : ∀ c ∈ pyStrip nm, c.toNat < 128 := by
    intro c hc
    apply hascii
    apply mem_of_mem_pyStrip (l := f)
    rw [← hcat]
    exact List.mem_append_left ex (mem_of_mem_pyStrip hc)
  have hs3chars :
      ∀ c ∈ pyStripUnderscores (collapseUnderscores (pySubNonWord (pyStrip nm))),
        allowedChar c = true := by
    intro c hc
    exact allowed_of_mem_pySubNonWord hnmascii c
      (mem_of_mem_collapse _ _ (mem_of_mem_pyStripUnderscores hc))
  have hextno : ∀ c ∈ ex.map Char.toLower, c ≠ '_' := by
    intro c hc
    obtain ⟨a, ha, rfl⟩ := List.mem_map.1 hc
    exact (extKeep_facts a (hexmem a ha)).2.2.1
  have hs3nd :
      noDoubleUnderscore
        (pyStripUnderscores (collapseUnderscores (pySubNonWord (pyStrip nm)))) = true :=
    noDouble_pyStripUnderscores (noDouble_collapse _)
  refine ⟨?_, ?_, ?_, ?_, ?_, ?_, ?_⟩
  · rw [hout]
    obtain ⟨c, hcf, hck⟩ := hsome
    rw [← hcat] at hcf
    rcases List.mem_append.1 hcf with hnm | hexm
    · have f1 : c ∈ pyStrip nm :=
        mem_pyStrip_of_mem hnm (extKeep_facts c hck).2.2.2.2.1
      have f2 : c ∈ pySubNonWord (pyStrip nm) := by
        apply List.mem_map.2
        refine ⟨c, f1, ?_⟩
        rw [if_pos (extKeep_facts c hck).2.2.2.2.2]
      have f3 : c ∈ collapseUnderscores (pySubNonWord (pyStrip nm)) :=
        mem_collapse_of_mem _ _ f2 (extKeep_facts c hck).2.2.2.1
      have f4 : c ∈ pyStripUnderscores (collapseUnderscores (pySubNonWord (pyStrip nm))) :=
        mem_pyStripUnderscores_of_mem f3 (extKeep_facts c hck).2.2.2.1
      intro h0
      rw [List.append_eq_nil] at h0
      rw [h0.1] at f4
      exact absurd f4 (List.not_mem_nil c)
    · intro h0
      rw [List.append_eq_nil] at h0
      have he : ex = [] := List.map_eq_nil_iff.1 h0.2
      rw [he] at hexm
      exact absurd hexm (List.not_mem_nil c)
  · rw [hout, List.all_append]
    have h1 :
        (pyStripUnderscores (collapseUnderscores (pySubNonWord (pyStrip nm)))).all
          allowedChar = true :=
      List.all_eq_true.2 hs3chars
    have h2 : (ex.map Char.toLower).all allowedChar = true := by
      apply List.all_eq_true.2
      intro c hc
      obtain ⟨a, ha, rfl⟩ := List.mem_map.1 hc
      exact (extKeep_facts a (hexmem a ha)).1
    rw [h1, h2]
    rfl
  · rw [hout]
    exact noDouble_append_clean _ _ hs3nd hextno
  · rw [hout]
    cases hs3c :
        pyStripUnderscores (collapseUnderscores (pySubNonWord (pyStrip nm))) with
    | nil =>
      simp only [List.nil_append]
      cases hexc : ex.map Char.toLower with
      | nil => simp
      | cons e et =>
        intro hcontr
        have he : e = '_' := by simpa using hcontr
        have hmem : e ∈ ex.map Char.toLower := by
          rw [hexc]; exact List.mem_cons_self e et
        exact hextno e hmem he
    | cons a r =>
      intro hcontr
      have ha : a = '_' := by simpa using hcontr
      exact head?_pyStripUnderscores_ne (by rw [hs3c]; rfl) ha
  · rw [hout]
    cases hexc : ex.map Char.toLower with
    | nil =>
      simp only [List.append_nil]
      intro hcontr
      exact getLast?_pyStripUnderscores_ne hcontr rfl
    | cons e et =>
      intro hcontr
      rw [List.getLast?_append] at hcontr
      have hx := List.getLast?_eq_getLast (e :: et) (by simp)
      rw [hx, Option.or_some] at hcontr
      have hlmem : (e :: et).getLast (by simp) ∈ ex.map Char.toLower := by
        rw [hexc]; exact List.getLast_mem _
      have hl : (e :: et).getLast (by simp) = '_' := by simpa using hcontr
      exact hextno _ hlmem hl
  · rw [hout, hsplit]
    exact List.suffix_append _ _
  · intro c hc
    rw [hsplit] at hc
    obtain ⟨a, ha, rfl⟩ := List.mem_map.1 hc
    exact (extKeep_facts a (hexmem a ha)).2.1

/-- C1 counterexample: the input `"a.B!"` contains punctuation, yet the
sanitized output `"a.b!"` keeps the `!` - the extension returned by
`splitext` is lower-cased but never sanitized, so the output does not match
`[A-Za-z0-9._-]`. -/
theorem sanitize_filename_charset_counterexample :
    ('!' ∈ "a.B!".data) ∧
    sanitize_filename "a.B!".data = "a.b!".data ∧
    (sanitize_filename "a.B!".data).all allowedChar = false :=
  ⟨by decide, by decide, by decide⟩

/-- Witness for C1 (amended) on the spec's own example
`"My Trip (2024)!.mp4"`: the output is nonempty, stays in the allowed
class, has no doubled underscore, no underscore at either end, and equals
the expected `"My_Trip_2024.mp4"`. -/
theorem sanitize_filename_sound_witness :
    sanitize_filename "My Trip (2024)!.mp4".data ≠ [] ∧
    (sanitize_filename "My Trip (2024)!.mp4".data).all allowedChar = true ∧
    noDoubleUnderscore (sanitize_filename "My Trip (2024)!.mp4".data) = true ∧
    (sanitize_filename "My Trip (2024)!.mp4".data).head? ≠ some '_' ∧
    (sanitize_filename "My Trip (2024)!.mp4".data).getLast? ≠ some '_' := by
  have h := sanitize_filename_sound "My Trip (2024)!.mp4".data
    (by decide) (by decide) (by decide)
  exact ⟨h.1, h.2.1, h.2.2.1, h.2.2.2.1, h.2.2.2.2.1⟩
